import Mathlib

/-!
Shallow embedding of the EMQX MQTT file-transfer client example
(file transfer over MQTT): the chunked sender, the per-file transfer
state machine, the batch coordinator with fail-fast semantics, the
deferred deletion scheduler and the control-message decode boundary.

Modelling conventions:
* The messaging transport is the out-of-scope collaborator.  A publish
  oracle `pub : Nat → Bool` gives the return code of the n-th
  `client_publish` call (`true` means `nng_sendmsg` returned 0).  Every
  publish attempt is recorded as an `Event` carrying the message and the
  outcome; control flow follows the outcome exactly as the C return
  codes do.
* Files are modelled by their observable behaviour in this program: the
  `ftell` size and the number of bytes `fread` can deliver before it
  reports end of data (`readable < size` models a read error or a
  truncated read; the readable prefix never exceeds the `ftell` size,
  i.e. the file is not modified during the transfer).  Payload bytes
  are abstracted to their lengths; no claim concerns the byte values.
* The `snprintf` length guards are modelled with the exact rendered
  strings and the limits used at each call site (`BUF_SIZE = 10240`,
  `TOPIC_LEN = 1024`, including the call sites that pass `BUF_SIZE`
  while writing into the 1024-byte topic buffer).
* Machine integers: `int` arithmetic wraps modulo 2^32 (`toInt32`);
  conversion to `unsigned int` is `u32`; `unsigned long` is 64 bits and
  `(unsigned long) (-1)` is `ULONG_MAX`.
* `flock`, `nng_msleep`, logging and the `feof` diagnostic have no
  observable effect on the publish trace and are not modelled;
  `nng_alloc` in the deferred-deletion path is modelled as succeeding.
-/

/-- `BUF_SIZE` from the source: 1024 * 10. -/
def BUF_SIZE : Nat := 1024 * 10

/-- `TOPIC_LEN` from the source. -/
def TOPIC_LEN : Nat := 1024

/-- `MAX_DELAY_7_DAYS` from the source: `1000 * 60 * 60 * 24 * 7`. -/
def MAX_DELAY_7_DAYS : Int := 1000 * 60 * 60 * 24 * 7

/-- The value of `(unsigned long) (-1)` on a 64-bit platform. -/
def ULONG_MAX : Nat := 2 ^ 64 - 1

/-- Conversion of a C `int` value to `unsigned int` (modulo 2^32). -/
def u32 (i : Int) : Nat := (i % (2 ^ 32 : Int)).toNat

/-- Wrap-around of an integer to the 32-bit signed range, the semantics
the claims prescribe for `int` overflow. -/
def toInt32 (i : Int) : Int := (i + 2 ^ 31) % 2 ^ 32 - 2 ^ 31

/-- Reinterpretation of an `unsigned long` as `long`, as the `%ld`
format directives in the source print it. -/
def signedOfU64 (v : Nat) : Int :=
  if v < 2 ^ 63 then (v : Int) else (v : Int) - 2 ^ 64

/-- One message handed to `client_publish`, abstracted to the fields the
destination and payload are built from. -/
inductive Msg where
  | init (fileId fileName : String) (size : Nat) (expireAt segmentsTtl : Option Nat)
  | chunk (fileId : String) (offset payloadLen : Nat)
  | fin (fileId : String) (size : Nat)
  | result (requestId : String) (success : Bool)
deriving DecidableEq

/-- One `client_publish` attempt: the message and whether the transport
accepted it (the return code of `nng_sendmsg`). -/
structure Event where
  msg : Msg
  ok : Bool
deriving DecidableEq

/-- Observable behaviour of a source file: the size reported by `ftell`
and the number of bytes `fread` delivers before reporting end of data.
`readable < size` models a file that cannot be fully read. -/
structure FileData where
  size : Nat
  readable : Nat
deriving DecidableEq

/-- The local filesystem: `none` means `fopen` fails for that path. -/
abbrev FS : Type := String → Option FileData

/-- The transport: outcome of the n-th `client_publish` call. -/
abbrev Oracle : Type := Nat → Bool

/-- A deletion performed by the batch coordinator: immediate
(`nng_file_delete` inline) or scheduled (`nng_sleep_aio` with the given
delay in milliseconds). -/
inductive DelAction where
  | now (path : String)
  | later (path : String) (delayMs : Int)
deriving DecidableEq

/-- Topic of the initial message: `$file/{file_id}/init`. -/
def initTopic (fid : String) : String := "$file/" ++ fid ++ "/init"

/-- Topic of a chunk message: `$file/{file_id}/{offset}`. -/
def chunkTopic (fid : String) (off : Nat) : String :=
  "$file/" ++ fid ++ "/" ++ toString off

/-- Topic of the final message: `$file/{file_id}/fin/{file_size}`. -/
def finTopic (fid : String) (size : Nat) : String :=
  "$file/" ++ fid ++ "/fin/" ++ toString size

/-- The `expire_at` fragment of the initial payload; empty when the
value is the `-1` sentinel, exactly as in `publish_initial`. -/
def expireAtStr (expire : Nat) : String :=
  if expire ≠ ULONG_MAX then
    "  \"expire_at\": " ++ toString (signedOfU64 expire) ++ ",\n"
  else ""

/-- The `segments_ttl` fragment of the initial payload; empty when the
value is the `-1` sentinel. -/
def segmentsTtlStr (ttl : Nat) : String :=
  if ttl ≠ ULONG_MAX then
    "  \"segments_ttl\": " ++ toString (signedOfU64 ttl) ++ ",\n"
  else ""

/-- The payload of the initial message, rendered exactly as the
`snprintf` in `publish_initial` renders it. -/
def initPayload (fname : String) (size : Nat) (expire ttl : Nat) : String :=
  "\x7b" ++ "\"name\": \"" ++ fname ++ "\"," ++ "\"size\": " ++ toString size ++ "," ++
    expireAtStr expire ++ segmentsTtlStr ttl ++ "  \"user_data\": \x7b\x7d\n" ++ "\x7d"

/-- The payload of the result message, rendered exactly as the
`snprintf` in `publish_send_result` renders it. -/
def resultPayload (rid : String) (success : Bool) : String :=
  "\x7b" ++ "  \"request-id\": \"" ++ rid ++ "\"," ++ "  \"success\": " ++
    (if success then "true" else "false") ++ "," ++ "  \"message\": \"\"" ++ "\x7d"

/-- The `-1` sentinel of `publish_initial` turned into the optional
field of the init metadata. -/
def sentinelOpt (v : Nat) : Option Nat :=
  if v = ULONG_MAX then none else some v

/-- `publish_initial`: render the payload and topic, fail without a
publish when a `snprintf` guard fires, otherwise publish the init
message.  Returns the attempts, the success flag (`rc == 0`) and the
new publish counter. -/
def publish_initial (pub : Oracle) (fid fname : String) (fsize : Nat)
    (expire ttl : Nat) (cnt : Nat) : List Event × Bool × Nat :=
  if BUF_SIZE ≤ (initPayload fname fsize expire ttl).length then ([], false, cnt)
  else if TOPIC_LEN ≤ (initTopic fid).length then ([], false, cnt)
  else ([⟨.init fid fname fsize (sentinelOpt expire) (sentinelOpt ttl), pub cnt⟩],
        pub cnt, cnt + 1)

/-- `publish_fin`: publish the empty final message to
`$file/{file_id}/fin/{file_size}`.  The topic guard uses `BUF_SIZE`, as
the source passes `BUF_SIZE` for the topic buffer at this call site. -/
def publish_fin (pub : Oracle) (fid : String) (fsize : Nat) (cnt : Nat) :
    List Event × Bool × Nat :=
  if BUF_SIZE ≤ (finTopic fid fsize).length then ([], false, cnt)
  else ([⟨.fin fid fsize, pub cnt⟩], pub cnt, cnt + 1)

/-- `publish_send_result`: render the result payload; when the guard
fires return failure without publishing, otherwise publish the result
message to the fixed result topic. -/
def publish_send_result (pub : Oracle) (rid : String) (success : Bool) (cnt : Nat) :
    List Event × Bool × Nat :=
  if BUF_SIZE ≤ (resultPayload rid success).length then ([], false, cnt)
  else ([⟨.result rid success, pub cnt⟩], pub cnt, cnt + 1)

/-- The chunk-publishing loop of `publish_file`, with an explicit fuel
argument in place of the while loop.  Each iteration reads
`min chunk_size (avail - offset)` bytes (the `fread` result), exits
with success when the read returns 0 bytes, publishes the chunk at the
current offset, breaks when the offset reaches the file size, and
otherwise shrinks the chunk size to the remaining byte count when it
exceeds it.  Every iteration that recurses consumes at least one byte,
so fuel `avail + 1` (used by `publish_file`) can never run out; the
zero-fuel branch is unreachable from `publish_file`. -/
def publish_file_go (pub : Oracle) (avail : Nat) (fid : String) (fsize : Nat) :
    Nat → Nat → Nat → Nat → List Event × Bool × Nat
  | 0, _, _, cnt => ([], false, cnt)
  | fuel + 1, csize, off, cnt =>
    let rb := min csize (avail - off)
    if rb = 0 then ([], true, cnt)
    else if BUF_SIZE ≤ (chunkTopic fid off).length then ([], false, cnt)
    else
      let e : Event := ⟨.chunk fid off rb, pub cnt⟩
      if pub cnt = false then ([e], false, cnt + 1)
      else if off + rb = fsize then ([e], true, cnt + 1)
      else
        let csize' := if fsize - (off + rb) < csize then fsize - (off + rb) else csize
        let r := publish_file_go pub avail fid fsize fuel csize' (off + rb) (cnt + 1)
        (e :: r.1, r.2.1, r.2.2)

/-- `publish_file`: stream the readable prefix of the file as chunk
messages starting at offset 0.  `interval` is the pacing sleep, with no
observable effect on the trace. -/
def publish_file (pub : Oracle) (avail : Nat) (fid : String) (fsize : Nat)
    (csize interval cnt : Nat) : List Event × Bool × Nat :=
  publish_file_go pub avail fid fsize (avail + 1) csize 0 cnt

/-- The chunk-size normalization at the top of `send_file`:
`if (chunk_size > 10240 || chunk_size == 0) chunk_size = 10240;`. -/
def effective_chunk_size (csize : Nat) : Nat :=
  if 10240 < csize ∨ csize = 0 then 10240 else csize

/-- `send_file`: normalize the chunk size, open the file (failure stops
the job before any publish), take the advisory lock (non-fatal, not
modelled), measure the size, publish the initial message, stream the
chunks and publish the final message.  Any failed step makes the job
fail and suppresses the later steps, exactly as the early returns in
the source do. -/
def send_file (pub : Oracle) (fs : FS) (path fid fname : String)
    (csize0 interval : Nat) (expire ttl : Nat) (cnt : Nat) :
    List Event × Bool × Nat :=
  let csize := effective_chunk_size csize0
  match fs path with
  | none => ([], false, cnt)
  | some fd =>
    let ri := publish_initial pub fid fname fd.size expire ttl cnt
    if ri.2.1 = false then (ri.1, false, ri.2.2)
    else
      let rc := publish_file pub (min fd.readable fd.size) fid fd.size csize interval ri.2.2
      if rc.2.1 = false then (ri.1 ++ rc.1, false, rc.2.2)
      else
        let rf := publish_fin pub fid fd.size rc.2.2
        (ri.1 ++ rc.1 ++ rf.1, rf.2.1, rf.2.2)

/-- The deletion policy applied by `process_msg` after a successful
job: nothing when the `delete` field is absent or negative, an
immediate `nng_file_delete` when it is zero, and otherwise a one-shot
scheduled deletion whose delay is `valueint * 1000` in `int`
arithmetic, upper-clamped to `MAX_DELAY_7_DAYS`.  The `nng_alloc` of
the path copy is modelled as succeeding. -/
def delete_delay (d : Int) : Int :=
  let delay := toInt32 (d * 1000)
  if MAX_DELAY_7_DAYS < delay then MAX_DELAY_7_DAYS else delay

/-- The deletion actions recorded for one successful job. -/
def deletionOf (del : Option Int) (path : String) : List DelAction :=
  match del with
  | none => []
  | some d =>
    if 0 ≤ d then
      if d = 0 then [.now path] else [.later path (delete_delay d)]
    else []

/-- One file job of a decoded request (one index of the parallel
`files` / `fileids` / `filenames` arrays). -/
structure FileJob where
  path : String
  fileId : String
  fileName : String
deriving DecidableEq

/-- The fields `parse_input` extracts from the inbound JSON document;
`none` models a missing field (`cJSON_GetObjectItem` returning NULL).
The numeric fields carry `valueint` values. -/
structure RawReq where
  files : Option (List String)
  filenames : Option (List String)
  fileids : Option (List String)
  request_id : Option String
  segment_size : Option Int
  delete : Option Int
  interval : Option Int
deriving DecidableEq

/-- A successfully decoded control request. -/
structure Request where
  request_id : String
  jobs : List FileJob
  segment_size : Option Int
  delete : Option Int
  interval : Option Int
deriving DecidableEq

/-- Zip the parallel path, id and name arrays into jobs, mirroring the
per-index `cJSON_GetArrayItem` reads of the batch loop. -/
def mkJobs : List String → List String → List String → List FileJob
  | p :: ps, i :: ids, n :: ns => ⟨p, i, n⟩ :: mkJobs ps ids ns
  | _, _, _ => []

/-- `parse_input` combined with the field extraction of `process_msg`:
reject when any of `files`, `fileids`, `filenames`, `request_id` is
missing, when `files` is empty, or when the parallel arrays have
mismatched lengths; otherwise produce the decoded request. -/
def parse_input (r : RawReq) : Option Request :=
  match r.files, r.fileids, r.filenames, r.request_id with
  | some ps, some ids, some ns, some rid =>
    if ps.length = 0 ∨ ps.length ≠ ids.length ∨ ps.length ≠ ns.length then none
    else some ⟨rid, mkJobs ps ids ns, r.segment_size, r.delete, r.interval⟩
  | _, _, _, _ => none

/-- Result of the batch loop in `process_msg`: the publish attempts,
the deletion actions, the aggregate success flag (`result == 0`), the
publish counter and the attempted jobs with their outcomes. -/
structure BatchOut where
  events : List Event
  dels : List DelAction
  ok : Bool
  cnt : Nat
  jobs : List (FileJob × Bool)
deriving DecidableEq

/-- The `for` loop of `process_msg`: run `send_file` for each job in
order; on success apply the deletion policy and continue, on failure
break.  The aggregate flag starts true (`result = 0`) and is the
outcome of the last attempted job. -/
def runJobs (pub : Oracle) (fs : FS) (del : Option Int) (csize interval : Nat) :
    List FileJob → Nat → BatchOut
  | [], cnt => ⟨[], [], true, cnt, []⟩
  | j :: rest, cnt =>
    let r := send_file pub fs j.path j.fileId j.fileName csize interval ULONG_MAX ULONG_MAX cnt
    if r.2.1 = true then
      let b := runJobs pub fs del csize interval rest r.2.2
      ⟨r.1 ++ b.events, deletionOf del j.path ++ b.dels, b.ok, b.cnt, (j, true) :: b.jobs⟩
    else ⟨r.1, [], false, r.2.2, [(j, false)]⟩

/-- Externally visible outcome of processing one inbound control
message: the publish attempts, the deletion actions and the attempted
jobs (observable through the per-job log lines). -/
structure ProcOut where
  events : List Event
  dels : List DelAction
  jobs : List (FileJob × Bool)
deriving DecidableEq

/-- The body of `process_msg` after a successful decode: run the batch
loop with the `segment-size` and `interval` values converted to
`unsigned int` (0 when absent) and `expire` / `segments_ttl` fixed to
the `-1` sentinel, then publish the result message carrying the
aggregate flag. -/
def run_batch (q : Request) (fs : FS) (pub : Oracle) : ProcOut :=
  let b := runJobs pub fs q.delete (u32 (q.segment_size.getD 0))
      (u32 (q.interval.getD 0)) q.jobs 0
  let r := publish_send_result pub q.request_id b.ok b.cnt
  ⟨b.events ++ r.1, b.dels, b.jobs⟩

/-- `process_msg`: `none` models a payload `cJSON_Parse` rejects; a
decode failure drops the message with no publish of any kind. -/
def process_msg (raw : Option RawReq) (fs : FS) (pub : Oracle) : ProcOut :=
  match raw with
  | none => ⟨[], [], []⟩
  | some r =>
    match parse_input r with
    | none => ⟨[], [], []⟩
    | some q => run_batch q fs pub

/-- Payload lengths of the chunk messages in a trace. -/
def chunkLens (ev : List Event) : List Nat :=
  ev.filterMap fun e =>
    match e.msg with
    | .chunk _ _ n => some n
    | _ => none

/-- Is this event a result message? -/
def isResultEv (e : Event) : Bool :=
  match e.msg with
  | .result _ _ => true
  | _ => false

/-- Every event a job may emit: never a result message, and when it is
an init message its optional metadata fields are absent. -/
def jobEventOK (m : Msg) : Bool :=
  match m with
  | .result _ _ => false
  | .init _ _ _ ex ttl => ex.isNone && ttl.isNone
  | _ => true

/-- Filesystem of the end-to-end example: one 10000-byte, fully
readable file at /tmp/a.bin. -/
def c1fs : FS := fun p => if p = "/tmp/a.bin" then some ⟨10000, 10000⟩ else none

/-- The control request of the end-to-end example. -/
def c1raw : RawReq :=
  ⟨some ["/tmp/a.bin"], some ["a.bin"], some ["id1"], some "r1", some 4096, none, some 0⟩

/-- A request id long enough that the rendered result payload reaches
the 10240-byte buffer limit of `publish_send_result`. -/
def bigRid : String := String.mk (List.replicate 10200 'a')

/-- A well-formed control request carrying the oversized request id. -/
def c2raw : RawReq :=
  ⟨some ["/x"], some ["nx"], some ["ix"], some bigRid, none, none, none⟩

/-- Claim C7: the effective chunk size equals 10240 when the requested
size is 0 or greater than 10240, and equals the requested size itself
for every value in [1, 10240]. -/
theorem c7_chunk_size_normalization (c : Nat) :
    ((c = 0 ∨ 10240 < c) → effective_chunk_size c = 10240) ∧
    (1 ≤ c → c ≤ 10240 → effective_chunk_size c = c) := by
  refine ⟨fun h => ?_, fun h1 h2 => ?_⟩ <;> unfold effective_chunk_size <;> split <;> omega

/-- Witness for C7 at the concrete inputs 4096 and 20000. -/
theorem c7_chunk_size_normalization_witness :
    effective_chunk_size 4096 = 4096 ∧ effective_chunk_size 20000 = 10240 :=
  ⟨(c7_chunk_size_normalization 4096).2 (by decide) (by decide),
   (c7_chunk_size_normalization 20000).1 (Or.inr (by decide))⟩

/-- Claim C4 (code bug): at delete = 600000000 the product
`delete * 1000` wraps in 32-bit int arithmetic to -1295421440, the
7-day clamp therefore does not fire, and the scheduled delay is
-1295421440 milliseconds rather than the claimed 604800000. -/
theorem c4_delay_overflows :
    deletionOf (some 600000000) "/f" = [DelAction.later "/f" (-1295421440)] ∧
    delete_delay 600000000 ≠ MAX_DELAY_7_DAYS := by
  exact ⟨by decide, by decide⟩

/-- Claim C5: an inbound control message that fails decoding
(unparseable JSON, a missing required field, empty parallel arrays, or
parallel arrays of mismatched length) produces zero publish attempts
of any kind, and no deletions. -/
theorem c5_malformed_publishes_nothing (raw : Option RawReq) (fs : FS) (pub : Oracle)
    (h : raw.bind parse_input = none) :
    process_msg raw fs pub = ⟨[], [], []⟩ := by
  cases raw with
  | none => rfl
  | some r =>
    simp only [Option.bind] at h
    simp [process_msg, h]

/-- Witness for C5 at a request whose parallel arrays have mismatched
lengths. -/
theorem c5_malformed_publishes_nothing_witness :
    (Option.bind (some (⟨some ["a"], some ["b"], some ["c", "d"], some "r",
        none, none, none⟩ : RawReq)) parse_input = none) ∧
    process_msg (some ⟨some ["a"], some ["b"], some ["c", "d"], some "r", none, none, none⟩)
      (fun _ => none) (fun _ => true) = ⟨[], [], []⟩ :=
  ⟨by decide, c5_malformed_publishes_nothing _ _ _ (by decide)⟩

/-- Claim C1: the example request over the 10000-byte file publishes
exactly one init message with size 10000, three chunks at offsets 0,
4096, 8192 with payload lengths 4096, 4096, 1808, one fin message for
size 10000 and one successful result for request r1, in that order. -/
theorem c1_example_end_to_end :
    process_msg (some c1raw) c1fs (fun _ => true) =
      ⟨[⟨.init "id1" "a.bin" 10000 none none, true⟩,
        ⟨.chunk "id1" 0 4096, true⟩,
        ⟨.chunk "id1" 4096 4096, true⟩,
        ⟨.chunk "id1" 8192 1808, true⟩,
        ⟨.fin "id1" 10000, true⟩,
        ⟨.result "r1" true, true⟩], [], [(⟨"/tmp/a.bin", "id1", "a.bin"⟩, true)]⟩ := by
  decide

theorem publish_initial_events (pub : Oracle) (fid fname : String)
    (fsize expire ttl cnt : Nat) :
    (publish_initial pub fid fname fsize expire ttl cnt).1 = [] ∨
    (publish_initial pub fid fname fsize expire ttl cnt).1 =
      [⟨.init fid fname fsize (sentinelOpt expire) (sentinelOpt ttl), pub cnt⟩] := by
  unfold publish_initial
  split
  · exact Or.inl rfl
  split
  · exact Or.inl rfl
  · exact Or.inr rfl

theorem publish_initial_ok (pub : Oracle) (fid fname : String) (fsize expire ttl cnt : Nat)
    (h : (publish_initial pub fid fname fsize expire ttl cnt).2.1 = true) :
    publish_initial pub fid fname fsize expire ttl cnt =
      ([⟨.init fid fname fsize (sentinelOpt expire) (sentinelOpt ttl), true⟩], true, cnt + 1) := by
  unfold publish_initial at h ⊢
  by_cases h1 : BUF_SIZE ≤ (initPayload fname fsize expire ttl).length
  · rw [if_pos h1] at h
    exact Bool.noConfusion h
  · rw [if_neg h1] at h ⊢
    by_cases h2 : TOPIC_LEN ≤ (initTopic fid).length
    · rw [if_pos h2] at h
      exact Bool.noConfusion h
    · rw [if_neg h2] at h ⊢
      have hp : pub cnt = true := h
      rw [hp]

theorem publish_fin_events (pub : Oracle) (fid : String) (fsize cnt : Nat) :
    (publish_fin pub fid fsize cnt).1 = [] ∨
    (publish_fin pub fid fsize cnt).1 = [⟨.fin fid fsize, pub cnt⟩] := by
  unfold publish_fin
  split
  · exact Or.inl rfl
  · exact Or.inr rfl

theorem publish_fin_ok (pub : Oracle) (fid : String) (fsize cnt : Nat)
    (h : (publish_fin pub fid fsize cnt).2.1 = true) :
    publish_fin pub fid fsize cnt = ([⟨.fin fid fsize, true⟩], true, cnt + 1) := by
  unfold publish_fin at h ⊢
  by_cases h1 : BUF_SIZE ≤ (finTopic fid fsize).length
  · rw [if_pos h1] at h
    exact Bool.noConfusion h
  · rw [if_neg h1] at h ⊢
    have hp : pub cnt = true := h
    rw [hp]

theorem publish_file_go_events (pub : Oracle) (avail : Nat) (fid : String) (fsize : Nat) :
    ∀ fuel csize off cnt,
      ∀ e ∈ (publish_file_go pub avail fid fsize fuel csize off cnt).1,
        ∃ o n, e.msg = .chunk fid o n := by
  intro fuel
  induction fuel with
  | zero =>
    intro csize off cnt e he
    simp [publish_file_go] at he
  | succ m ih =>
    intro csize off cnt e he
    simp only [publish_file_go] at he
    by_cases h0 : min csize (avail - off) = 0
    · rw [if_pos h0] at he
      exact absurd he (List.not_mem_nil e)
    · rw [if_neg h0] at he
      by_cases h1 : BUF_SIZE ≤ (chunkTopic fid off).length
      · rw [if_pos h1] at he
        exact absurd he (List.not_mem_nil e)
      · rw [if_neg h1] at he
        by_cases h2 : pub cnt = false
        · rw [if_pos h2] at he
          rw [List.mem_singleton.mp he]
          exact ⟨off, _, rfl⟩
        · rw [if_neg h2] at he
          by_cases h3 : off + min csize (avail - off) = fsize
          · rw [if_pos h3] at he
            rw [List.mem_singleton.mp he]
            exact ⟨off, _, rfl⟩
          · rw [if_neg h3] at he
            rcases List.mem_cons.mp he with h4 | h4
            · rw [h4]
              exact ⟨off, _, rfl⟩
            · exact ih _ _ _ e h4

theorem publish_initial_mem_ok (pub : Oracle) (fid fname : String) (fsize cnt : Nat)
    (e : Event) (he : e ∈ (publish_initial pub fid fname fsize ULONG_MAX ULONG_MAX cnt).1) :
    jobEventOK e.msg = true := by
  rcases publish_initial_events pub fid fname fsize ULONG_MAX ULONG_MAX cnt with h | h
  · rw [h] at he
    exact absurd he (List.not_mem_nil e)
  · rw [h] at he
    rw [List.mem_singleton.mp he]
    simp [jobEventOK, sentinelOpt]

theorem publish_fin_mem_ok (pub : Oracle) (fid : String) (fsize cnt : Nat)
    (e : Event) (he : e ∈ (publish_fin pub fid fsize cnt).1) :
    jobEventOK e.msg = true := by
  rcases publish_fin_events pub fid fsize cnt with h | h
  · rw [h] at he
    exact absurd he (List.not_mem_nil e)
  · rw [h] at he
    rw [List.mem_singleton.mp he]
    rfl

theorem publish_file_mem_ok (pub : Oracle) (avail : Nat) (fid : String)
    (fsize csize interval cnt : Nat) (e : Event)
    (he : e ∈ (publish_file pub avail fid fsize csize interval cnt).1) :
    jobEventOK e.msg = true := by
  unfold publish_file at he
  obtain ⟨o, n, hmsg⟩ := publish_file_go_events pub avail fid fsize _ _ _ _ e he
  rw [hmsg]
  rfl

theorem send_file_events (pub : Oracle) (fs : FS) (path fid fname : String)
    (csize0 interval cnt : Nat) :
    ∀ e ∈ (send_file pub fs path fid fname csize0 interval ULONG_MAX ULONG_MAX cnt).1,
      jobEventOK e.msg = true := by
  intro e he
  unfold send_file at he
  cases hfs : fs path with
  | none =>
    rw [hfs] at he
    exact absurd he (List.not_mem_nil e)
  | some fd =>
    rw [hfs] at he
    simp only at he
    by_cases hI : (publish_initial pub fid fname fd.size ULONG_MAX ULONG_MAX cnt).2.1 = false
    · rw [if_pos hI] at he
      exact publish_initial_mem_ok pub fid fname fd.size cnt e he
    · rw [if_neg hI] at he
      by_cases hC : (publish_file pub (min fd.readable fd.size) fid fd.size
          (effective_chunk_size csize0) interval
          (publish_initial pub fid fname fd.size ULONG_MAX ULONG_MAX cnt).2.2).2.1 = false
      · rw [if_pos hC] at he
        rcases List.mem_append.mp he with h | h
        · exact publish_initial_mem_ok pub fid fname fd.size cnt e h
        · exact publish_file_mem_ok pub (min fd.readable fd.size) fid fd.size
            (effective_chunk_size csize0) interval
            (publish_initial pub fid fname fd.size ULONG_MAX ULONG_MAX cnt).2.2 e h
      · rw [if_neg hC] at he
        rcases List.mem_append.mp he with h | h
        · rcases List.mem_append.mp h with h2 | h2
          · exact publish_initial_mem_ok pub fid fname fd.size cnt e h2
          · exact publish_file_mem_ok pub (min fd.readable fd.size) fid fd.size
              (effective_chunk_size csize0) interval
              (publish_initial pub fid fname fd.size ULONG_MAX ULONG_MAX cnt).2.2 e h2
        · exact publish_fin_mem_ok pub fid fd.size
            (publish_file pub (min fd.readable fd.size) fid fd.size
              (effective_chunk_size csize0) interval
              (publish_initial pub fid fname fd.size ULONG_MAX ULONG_MAX cnt).2.2).2.2 e h

theorem jobEventOK_not_result (e : Event) (h : jobEventOK e.msg = true) :
    isResultEv e = false := by
  rcases e with ⟨m, ok⟩
  cases m <;> first | rfl | exact absurd h (by simp [jobEventOK])

theorem runJobs_events (pub : Oracle) (fs : FS) (del : Option Int) (csize interval : Nat) :
    ∀ jobs cnt, ∀ e ∈ (runJobs pub fs del csize interval jobs cnt).events,
      jobEventOK e.msg = true := by
  intro jobs
  induction jobs with
  | nil =>
    intro cnt e he
    exact absurd he (List.not_mem_nil e)
  | cons j rest ih =>
    intro cnt e he
    unfold runJobs at he
    simp only at he
    by_cases hr : (send_file pub fs j.path j.fileId j.fileName csize interval
        ULONG_MAX ULONG_MAX cnt).2.1 = true
    · rw [if_pos hr] at he
      rcases List.mem_append.mp he with h | h
      · exact send_file_events _ _ _ _ _ _ _ _ e h
      · exact ih _ e h
    · rw [if_neg hr] at he
      exact send_file_events _ _ _ _ _ _ _ _ e he

theorem runJobs_cons_ok (pub : Oracle) (fs : FS) (del : Option Int)
    (csize interval : Nat) (j : FileJob) (rest : List FileJob) (cnt : Nat)
    (hr : (send_file pub fs j.path j.fileId j.fileName csize interval
      ULONG_MAX ULONG_MAX cnt).2.1 = true) :
    runJobs pub fs del csize interval (j :: rest) cnt =
      ⟨(send_file pub fs j.path j.fileId j.fileName csize interval ULONG_MAX ULONG_MAX cnt).1 ++
         (runJobs pub fs del csize interval rest
           ((send_file pub fs j.path j.fileId j.fileName csize interval
             ULONG_MAX ULONG_MAX cnt).2.2)).events,
       deletionOf del j.path ++
         (runJobs pub fs del csize interval rest
           ((send_file pub fs j.path j.fileId j.fileName csize interval
             ULONG_MAX ULONG_MAX cnt).2.2)).dels,
       (runJobs pub fs del csize interval rest
         ((send_file pub fs j.path j.fileId j.fileName csize interval
           ULONG_MAX ULONG_MAX cnt).2.2)).ok,
       (runJobs pub fs del csize interval rest
         ((send_file pub fs j.path j.fileId j.fileName csize interval
           ULONG_MAX ULONG_MAX cnt).2.2)).cnt,
       (j, true) ::
         (runJobs pub fs del csize interval rest
           ((send_file pub fs j.path j.fileId j.fileName csize interval
             ULONG_MAX ULONG_MAX cnt).2.2)).jobs⟩ := by
  conv_lhs => unfold runJobs
  simp only
  rw [if_pos hr]

theorem runJobs_cons_fail (pub : Oracle) (fs : FS) (del : Option Int)
    (csize interval : Nat) (j : FileJob) (rest : List FileJob) (cnt : Nat)
    (hr : (send_file pub fs j.path j.fileId j.fileName csize interval
      ULONG_MAX ULONG_MAX cnt).2.1 = false) :
    runJobs pub fs del csize interval (j :: rest) cnt =
      ⟨(send_file pub fs j.path j.fileId j.fileName csize interval ULONG_MAX ULONG_MAX cnt).1,
       [], false,
       (send_file pub fs j.path j.fileId j.fileName csize interval ULONG_MAX ULONG_MAX cnt).2.2,
       [(j, false)]⟩ := by
  conv_lhs => unfold runJobs
  simp only
  rw [if_neg (by simp [hr])]

theorem runJobs_append_ok (pub : Oracle) (fs : FS) (del : Option Int) (csize interval : Nat) :
    ∀ (xs ys : List FileJob) (cnt cnt1 : Nat) (ev1 : List Event)
      (dl1 : List DelAction) (out1 : List (FileJob × Bool)),
      runJobs pub fs del csize interval xs cnt = ⟨ev1, dl1, true, cnt1, out1⟩ →
      runJobs pub fs del csize interval (xs ++ ys) cnt =
        ⟨ev1 ++ (runJobs pub fs del csize interval ys cnt1).events,
         dl1 ++ (runJobs pub fs del csize interval ys cnt1).dels,
         (runJobs pub fs del csize interval ys cnt1).ok,
         (runJobs pub fs del csize interval ys cnt1).cnt,
         out1 ++ (runJobs pub fs del csize interval ys cnt1).jobs⟩ := by
  intro xs
  induction xs with
  | nil =>
    intro ys cnt cnt1 ev1 dl1 out1 h
    have h' : (⟨[], [], true, cnt, []⟩ : BatchOut) = ⟨ev1, dl1, true, cnt1, out1⟩ := h
    injection h' with h1 h2 h3 h4 h5
    subst h1
    subst h2
    subst h4
    subst h5
    simp only [List.nil_append]
  | cons j rest ih =>
    intro ys cnt cnt1 ev1 dl1 out1 h
    by_cases hr : (send_file pub fs j.path j.fileId j.fileName csize interval
        ULONG_MAX ULONG_MAX cnt).2.1 = true
    · rw [runJobs_cons_ok pub fs del csize interval j rest cnt hr] at h
      injection h with h1 h2 h3 h4 h5
      have hb : runJobs pub fs del csize interval rest
          ((send_file pub fs j.path j.fileId j.fileName csize interval
            ULONG_MAX ULONG_MAX cnt).2.2) =
          ⟨(runJobs pub fs del csize interval rest
              ((send_file pub fs j.path j.fileId j.fileName csize interval
                ULONG_MAX ULONG_MAX cnt).2.2)).events,
           (runJobs pub fs del csize interval rest
              ((send_file pub fs j.path j.fileId j.fileName csize interval
                ULONG_MAX ULONG_MAX cnt).2.2)).dels,
           true,
           (runJobs pub fs del csize interval rest
              ((send_file pub fs j.path j.fileId j.fileName csize interval
                ULONG_MAX ULONG_MAX cnt).2.2)).cnt,
           (runJobs pub fs del csize interval rest
              ((send_file pub fs j.path j.fileId j.fileName csize interval
                ULONG_MAX ULONG_MAX cnt).2.2)).jobs⟩ := by
        rw [← h3]
      have key := ih ys _ _ _ _ _ hb
      subst h1
      subst h2
      subst h4
      subst h5
      rw [List.cons_append, runJobs_cons_ok pub fs del csize interval j (rest ++ ys) cnt hr, key]
      simp [List.append_assoc]
    · rw [runJobs_cons_fail pub fs del csize interval j rest cnt
        (Bool.eq_false_iff.mpr hr)] at h
      injection h with h1 h2 h3 h4 h5
      exact Bool.noConfusion h3

theorem publish_send_result_events (pub : Oracle) (rid : String) (success : Bool) (cnt : Nat) :
    (publish_send_result pub rid success cnt).1 = [] ∨
    (publish_send_result pub rid success cnt).1 = [⟨.result rid success, pub cnt⟩] := by
  unfold publish_send_result
  split
  · exact Or.inl rfl
  · exact Or.inr rfl

/-- Claim C3: in a batch [A, B, C] where job A succeeds and job B (with
an openable file, so its failure is a failed publish) fails, exactly A
and B are attempted in that order, C is never attempted, and the one
published batch result carries success = false. -/
theorem c3_fail_fast (A B C : FileJob) (rid : String) (ss del intv : Option Int)
    (fs : FS) (pub : Oracle) (evA : List Event) (cntA : Nat) (evB : List Event) (cntB : Nat)
    (hA : send_file pub fs A.path A.fileId A.fileName (u32 (ss.getD 0)) (u32 (intv.getD 0))
      ULONG_MAX ULONG_MAX 0 = (evA, true, cntA))
    (hBopen : fs B.path ≠ none)
    (hB : send_file pub fs B.path B.fileId B.fileName (u32 (ss.getD 0)) (u32 (intv.getD 0))
      ULONG_MAX ULONG_MAX cntA = (evB, false, cntB))
    (hrid : (resultPayload rid false).length < BUF_SIZE) :
    run_batch ⟨rid, [A, B, C], ss, del, intv⟩ fs pub =
      ⟨(evA ++ evB) ++ [⟨.result rid false, pub cntB⟩], deletionOf del A.path,
       [(A, true), (B, false)]⟩ := by
  have hrA : (send_file pub fs A.path A.fileId A.fileName (u32 (ss.getD 0)) (u32 (intv.getD 0))
      ULONG_MAX ULONG_MAX 0).2.1 = true := by rw [hA]
  have hrB : (send_file pub fs B.path B.fileId B.fileName (u32 (ss.getD 0)) (u32 (intv.getD 0))
      ULONG_MAX ULONG_MAX cntA).2.1 = false := by rw [hB]
  have hBC : runJobs pub fs del (u32 (ss.getD 0)) (u32 (intv.getD 0)) [B, C] cntA =
      ⟨evB, [], false, cntB, [(B, false)]⟩ := by
    rw [runJobs_cons_fail pub fs del (u32 (ss.getD 0)) (u32 (intv.getD 0)) B [C] cntA hrB, hB]
  have hABC : runJobs pub fs del (u32 (ss.getD 0)) (u32 (intv.getD 0)) [A, B, C] 0 =
      ⟨evA ++ evB, deletionOf del A.path ++ [], false, cntB, (A, true) :: [(B, false)]⟩ := by
    rw [runJobs_cons_ok pub fs del (u32 (ss.getD 0)) (u32 (intv.getD 0)) A [B, C] 0 hrA, hA, hBC]
  have hres : publish_send_result pub rid false cntB =
      ([⟨.result rid false, pub cntB⟩], pub cntB, cntB + 1) := by
    unfold publish_send_result
    rw [if_neg (Nat.not_le.mpr hrid)]
  unfold run_batch
  dsimp only
  rw [hABC]
  dsimp only
  rw [hres]
  simp

/-- Witness for C3: a concrete batch of three empty-file jobs in which
the transport rejects publish number 2, the init of job B. -/
theorem c3_fail_fast_witness :
    (send_file (fun n => n != 2)
        (fun p => if p = "/a" ∨ p = "/b" then some ⟨0, 0⟩ else none)
        (FileJob.mk "/a" "ia" "na").path (FileJob.mk "/a" "ia" "na").fileId
        (FileJob.mk "/a" "ia" "na").fileName
        (u32 ((none : Option Int).getD 0)) (u32 ((none : Option Int).getD 0))
        ULONG_MAX ULONG_MAX 0 =
      ([⟨.init "ia" "na" 0 none none, true⟩, ⟨.fin "ia" 0, true⟩], true, 2)) ∧
    ((fun p => if p = "/a" ∨ p = "/b" then some ⟨0, 0⟩ else none) : FS)
        (FileJob.mk "/b" "ib" "nb").path ≠ none ∧
    (send_file (fun n => n != 2)
        (fun p => if p = "/a" ∨ p = "/b" then some ⟨0, 0⟩ else none)
        (FileJob.mk "/b" "ib" "nb").path (FileJob.mk "/b" "ib" "nb").fileId
        (FileJob.mk "/b" "ib" "nb").fileName
        (u32 ((none : Option Int).getD 0)) (u32 ((none : Option Int).getD 0))
        ULONG_MAX ULONG_MAX 2 =
      ([⟨.init "ib" "nb" 0 none none, false⟩], false, 3)) ∧
    ((resultPayload "r3" false).length < BUF_SIZE) ∧
    run_batch ⟨"r3", [⟨"/a", "ia", "na"⟩, ⟨"/b", "ib", "nb"⟩, ⟨"/c", "ic", "nc"⟩],
        none, none, none⟩
      (fun p => if p = "/a" ∨ p = "/b" then some ⟨0, 0⟩ else none) (fun n => n != 2) =
      ⟨([⟨.init "ia" "na" 0 none none, true⟩, ⟨.fin "ia" 0, true⟩] ++
          [⟨.init "ib" "nb" 0 none none, false⟩]) ++ [⟨.result "r3" false, true⟩],
       deletionOf none (FileJob.mk "/a" "ia" "na").path,
       [(⟨"/a", "ia", "na"⟩, true), (⟨"/b", "ib", "nb"⟩, false)]⟩ :=
  ⟨by decide, by decide, by decide, by decide,
   c3_fail_fast ⟨"/a", "ia", "na"⟩ ⟨"/b", "ib", "nb"⟩ ⟨"/c", "ic", "nc"⟩ "r3" none none none
     (fun p => if p = "/a" ∨ p = "/b" then some ⟨0, 0⟩ else none) (fun n => n != 2)
     [⟨.init "ia" "na" 0 none none, true⟩, ⟨.fin "ia" 0, true⟩] 2
     [⟨.init "ib" "nb" 0 none none, false⟩] 3
     (by decide) (by decide) (by decide) (by decide)⟩

/-- Claim C8 counterexample: a file whose readable prefix (2 bytes) is
shorter than its size (7 bytes) — a file that cannot be fully read —
still yields a successful job: the truncated read ends the chunk loop,
a fin message for the full size 7 is published, and the batch result
carries success = true, contradicting the claim at this input. -/
theorem c8_counterexample :
    run_batch ⟨"r8", [⟨"/p8", "id8", "n8"⟩], none, none, none⟩
        (fun p => if p = "/p8" then some ⟨7, 2⟩ else none) (fun _ => true) =
      ⟨[⟨.init "id8" "n8" 7 none none, true⟩, ⟨.chunk "id8" 0 2, true⟩,
        ⟨.fin "id8" 7, true⟩, ⟨.result "r8" true, true⟩],
       [], [(⟨"/p8", "id8", "n8"⟩, true)]⟩ := by
  decide

/-- Claim C8 as amended: for a file job whose source cannot be opened
(after a prefix of successful jobs), the job fails having published
nothing — in particular no fin message — the batch result carries
success = false, and no file after it is attempted. -/
theorem c8_unopenable_aborts_batch (fs : FS) (pub : Oracle) (rid : String)
    (ss del intv : Option Int) (jobs1 jobs2 : List FileJob) (j : FileJob)
    (ev1 : List Event) (dl1 : List DelAction) (cnt1 : Nat) (out1 : List (FileJob × Bool))
    (h1 : runJobs pub fs del (u32 (ss.getD 0)) (u32 (intv.getD 0)) jobs1 0 =
      ⟨ev1, dl1, true, cnt1, out1⟩)
    (hj : fs j.path = none)
    (hrid : (resultPayload rid false).length < BUF_SIZE) :
    send_file pub fs j.path j.fileId j.fileName (u32 (ss.getD 0)) (u32 (intv.getD 0))
        ULONG_MAX ULONG_MAX cnt1 = ([], false, cnt1) ∧
    run_batch ⟨rid, jobs1 ++ j :: jobs2, ss, del, intv⟩ fs pub =
      ⟨ev1 ++ [⟨.result rid false, pub cnt1⟩], dl1, out1 ++ [(j, false)]⟩ := by
  have hsf : send_file pub fs j.path j.fileId j.fileName (u32 (ss.getD 0)) (u32 (intv.getD 0))
      ULONG_MAX ULONG_MAX cnt1 = ([], false, cnt1) := by
    unfold send_file
    rw [hj]
  refine ⟨hsf, ?_⟩
  have hrj : (send_file pub fs j.path j.fileId j.fileName (u32 (ss.getD 0)) (u32 (intv.getD 0))
      ULONG_MAX ULONG_MAX cnt1).2.1 = false := by rw [hsf]
  have htail : runJobs pub fs del (u32 (ss.getD 0)) (u32 (intv.getD 0)) (j :: jobs2) cnt1 =
      ⟨[], [], false, cnt1, [(j, false)]⟩ := by
    rw [runJobs_cons_fail pub fs del (u32 (ss.getD 0)) (u32 (intv.getD 0)) j jobs2 cnt1 hrj, hsf]
  have hall := runJobs_append_ok pub fs del (u32 (ss.getD 0)) (u32 (intv.getD 0))
    jobs1 (j :: jobs2) 0 cnt1 ev1 dl1 out1 h1
  rw [htail] at hall
  have hres : publish_send_result pub rid false cnt1 =
      ([⟨.result rid false, pub cnt1⟩], pub cnt1, cnt1 + 1) := by
    unfold publish_send_result
    rw [if_neg (Nat.not_le.mpr hrid)]
  unfold run_batch
  dsimp only
  rw [hall]
  dsimp only
  rw [hres]
  simp

/-- Witness for C8 as amended: an empty prefix, an unopenable file and
one further job that is never attempted. -/
theorem c8_unopenable_aborts_batch_witness :
    (runJobs (fun _ => true) (fun _ => none) none
        (u32 ((none : Option Int).getD 0)) (u32 ((none : Option Int).getD 0)) [] 0 =
      ⟨[], [], true, 0, []⟩) ∧
    ((fun _ => none : FS) (FileJob.mk "/nope" "in0" "nn0").path = none) ∧
    ((resultPayload "rw8" false).length < BUF_SIZE) ∧
    run_batch ⟨"rw8", [] ++ ⟨"/nope", "in0", "nn0"⟩ :: [⟨"/c2", "ic2", "nc2"⟩], none, none, none⟩
        (fun _ => none) (fun _ => true) =
      ⟨[] ++ [⟨.result "rw8" false, true⟩], [], [] ++ [(⟨"/nope", "in0", "nn0"⟩, false)]⟩ :=
  ⟨by decide, by decide, by decide,
   (c8_unopenable_aborts_batch (fun _ => none) (fun _ => true) "rw8" none none none
     [] [⟨"/c2", "ic2", "nc2"⟩] ⟨"/nope", "in0", "nn0"⟩ [] [] 0 []
     (by decide) (by decide) (by decide)).2⟩

/-- Claim C9 counterexample: an empty file whose init publish succeeds
(the first attempt is accepted) but whose fin publish is rejected: the
fin attempt is made and zero chunks are published, yet the job result
is failure, contradicting the claimed success at this input. -/
theorem c9_counterexample :
    send_file (fun n => n == 0) (fun p => if p = "/p9" then some ⟨0, 0⟩ else none)
        "/p9" "id9" "n9" 10240 0 ULONG_MAX ULONG_MAX 0 =
      ([⟨.init "id9" "n9" 0 none none, true⟩, ⟨.fin "id9" 0, false⟩], false, 2) := by
  decide

/-- Claim C9 as amended: for an empty (size 0) file job whose init
publish succeeds and whose fin publish also succeeds, zero chunk
messages are published, the init message announces size 0, the fin
message announces size 0, and the job succeeds. -/
theorem c9_empty_file_success (pub : Oracle) (fs : FS) (path fid fname : String)
    (csize0 interval expire ttl cnt : Nat) (fd : FileData)
    (hfd : fs path = some fd) (hsize : fd.size = 0)
    (hinit : (publish_initial pub fid fname 0 expire ttl cnt).2.1 = true)
    (hfin : (publish_fin pub fid 0 (cnt + 1)).2.1 = true) :
    send_file pub fs path fid fname csize0 interval expire ttl cnt =
      ([⟨.init fid fname 0 (sentinelOpt expire) (sentinelOpt ttl), true⟩,
        ⟨.fin fid 0, true⟩], true, cnt + 2) := by
  have hi := publish_initial_ok pub fid fname 0 expire ttl cnt hinit
  have hf := publish_fin_ok pub fid 0 (cnt + 1) hfin
  have hpf : publish_file pub (min fd.readable 0) fid 0
      (effective_chunk_size csize0) interval (cnt + 1) = ([], true, cnt + 1) := by
    unfold publish_file publish_file_go
    simp
  unfold send_file
  rw [hfd]
  dsimp only
  rw [hsize, hi]
  dsimp only
  rw [if_neg (by simp), hpf]
  dsimp only
  rw [if_neg (by simp), hf]
  simp

/-- Witness for C9 as amended at a concrete empty file with an
all-accepting transport. -/
theorem c9_empty_file_success_witness :
    ((fun p => if p = "/e" then some ⟨0, 5⟩ else none : FS) "/e" = some ⟨0, 5⟩) ∧
    ((⟨0, 5⟩ : FileData).size = 0) ∧
    ((publish_initial (fun _ => true) "ie" "ne" 0 ULONG_MAX ULONG_MAX 0).2.1 = true) ∧
    ((publish_fin (fun _ => true) "ie" 0 1).2.1 = true) ∧
    send_file (fun _ => true) (fun p => if p = "/e" then some ⟨0, 5⟩ else none)
        "/e" "ie" "ne" 0 0 ULONG_MAX ULONG_MAX 0 =
      ([⟨.init "ie" "ne" 0 (sentinelOpt ULONG_MAX) (sentinelOpt ULONG_MAX), true⟩,
        ⟨.fin "ie" 0, true⟩], true, 2) :=
  ⟨by decide, by decide, by decide, by decide,
   c9_empty_file_success (fun _ => true) (fun p => if p = "/e" then some ⟨0, 5⟩ else none)
     "/e" "ie" "ne" 0 0 ULONG_MAX ULONG_MAX 0 ⟨0, 5⟩
     (by decide) (by decide) (by decide) (by decide)⟩

/-- Claim C10: every init message in the trace of a control-channel
request has both optional metadata fields absent: the batch coordinator
passes the -1 sentinels to the sender, and the init builder omits each
field at the sentinel. -/
theorem c10_init_has_no_expiry (raw : Option RawReq) (fs : FS) (pub : Oracle) (e : Event)
    (he : e ∈ (process_msg raw fs pub).events) :
    ∀ fid fname sz ex ttl, e.msg = .init fid fname sz ex ttl → ex = none ∧ ttl = none := by
  intro fid fname sz ex ttl hmsg
  cases raw with
  | none => exact absurd he (List.not_mem_nil e)
  | some r =>
    unfold process_msg at he
    dsimp only at he
    cases hp : parse_input r with
    | none =>
      rw [hp] at he
      exact absurd he (List.not_mem_nil e)
    | some q =>
      rw [hp] at he
      unfold run_batch at he
      dsimp only at he
      rcases List.mem_append.mp he with h | h
      · have hok := runJobs_events pub fs q.delete (u32 (q.segment_size.getD 0))
          (u32 (q.interval.getD 0)) q.jobs 0 e h
        rw [hmsg] at hok
        simp [jobEventOK, Option.isNone_iff_eq_none] at hok
        exact hok
      · rcases publish_send_result_events pub q.request_id
            (runJobs pub fs q.delete (u32 (q.segment_size.getD 0))
              (u32 (q.interval.getD 0)) q.jobs 0).ok
            (runJobs pub fs q.delete (u32 (q.segment_size.getD 0))
              (u32 (q.interval.getD 0)) q.jobs 0).cnt with hr | hr
        · rw [hr] at h
          exact absurd h (List.not_mem_nil e)
        · rw [hr] at h
          rw [List.mem_singleton.mp h] at hmsg
          exact Msg.noConfusion hmsg

/-- Witness for C10: the init event of a concrete empty-file request
has both optional fields absent. -/
theorem c10_init_has_no_expiry_witness :
    ((⟨.init "iw" "nw" 0 none none, true⟩ : Event) ∈
      (process_msg (some ⟨some ["/w"], some ["nw"], some ["iw"], some "rw", none, none, none⟩)
        (fun p => if p = "/w" then some ⟨0, 0⟩ else none) (fun _ => true)).events) ∧
    ((none : Option Nat) = none ∧ (none : Option Nat) = none) :=
  ⟨by decide,
   c10_init_has_no_expiry
     (some ⟨some ["/w"], some ["nw"], some ["iw"], some "rw", none, none, none⟩)
     (fun p => if p = "/w" then some ⟨0, 0⟩ else none) (fun _ => true)
     ⟨.init "iw" "nw" 0 none none, true⟩ (by decide) "iw" "nw" 0 none none rfl⟩

/-- Claim C2 as amended: for every decoded request whose rendered
result payload fits the 10240-byte buffer, exactly one result message
is published, as the last publish of the request, and it carries the
request id. -/
theorem c2_exactly_one_result (q : Request) (fs : FS) (pub : Oracle)
    (hrid : ∀ b, (resultPayload q.request_id b).length < BUF_SIZE) :
    ∃ succ sendOk,
      (run_batch q fs pub).events.getLast? = some ⟨.result q.request_id succ, sendOk⟩ ∧
      ((run_batch q fs pub).events.filter isResultEv).length = 1 := by
  have hres : publish_send_result pub q.request_id
      (runJobs pub fs q.delete (u32 (q.segment_size.getD 0))
        (u32 (q.interval.getD 0)) q.jobs 0).ok
      (runJobs pub fs q.delete (u32 (q.segment_size.getD 0))
        (u32 (q.interval.getD 0)) q.jobs 0).cnt =
      ([⟨.result q.request_id
          (runJobs pub fs q.delete (u32 (q.segment_size.getD 0))
            (u32 (q.interval.getD 0)) q.jobs 0).ok,
         pub (runJobs pub fs q.delete (u32 (q.segment_size.getD 0))
            (u32 (q.interval.getD 0)) q.jobs 0).cnt⟩],
       pub (runJobs pub fs q.delete (u32 (q.segment_size.getD 0))
            (u32 (q.interval.getD 0)) q.jobs 0).cnt,
       (runJobs pub fs q.delete (u32 (q.segment_size.getD 0))
            (u32 (q.interval.getD 0)) q.jobs 0).cnt + 1) := by
    unfold publish_send_result
    rw [if_neg (Nat.not_le.mpr (hrid _))]
  refine ⟨(runJobs pub fs q.delete (u32 (q.segment_size.getD 0))
      (u32 (q.interval.getD 0)) q.jobs 0).ok,
    pub (runJobs pub fs q.delete (u32 (q.segment_size.getD 0))
      (u32 (q.interval.getD 0)) q.jobs 0).cnt, ?_, ?_⟩
  · unfold run_batch
    dsimp only
    rw [hres]
    exact List.getLast?_concat _
  · unfold run_batch
    dsimp only
    rw [hres]
    rw [List.filter_append]
    have hnil : (runJobs pub fs q.delete (u32 (q.segment_size.getD 0))
        (u32 (q.interval.getD 0)) q.jobs 0).events.filter isResultEv = [] := by
      rw [List.filter_eq_nil_iff]
      intro a ha
      have := jobEventOK_not_result a (runJobs_events pub fs q.delete
        (u32 (q.segment_size.getD 0)) (u32 (q.interval.getD 0)) q.jobs 0 a ha)
      simp [this]
    rw [hnil]
    rfl

/-- Witness for C2 as amended at a one-file request whose file cannot
be opened. -/
theorem c2_exactly_one_result_witness :
    (∀ b, (resultPayload (Request.request_id ⟨"rw2", [⟨"/n2", "i2", "n2"⟩], none, none, none⟩) b).length
      < BUF_SIZE) ∧
    (∃ succ sendOk,
      (run_batch ⟨"rw2", [⟨"/n2", "i2", "n2"⟩], none, none, none⟩ (fun _ => none)
          (fun _ => true)).events.getLast? =
        some ⟨.result (Request.request_id ⟨"rw2", [⟨"/n2", "i2", "n2"⟩], none, none, none⟩)
          succ, sendOk⟩ ∧
      ((run_batch ⟨"rw2", [⟨"/n2", "i2", "n2"⟩], none, none, none⟩ (fun _ => none)
          (fun _ => true)).events.filter isResultEv).length = 1) :=
  ⟨by decide,
   c2_exactly_one_result ⟨"rw2", [⟨"/n2", "i2", "n2"⟩], none, none, none⟩
     (fun _ => none) (fun _ => true) (by decide)⟩

/-- Claim C2 counterexample: a request that decodes successfully but
whose request id makes the rendered result payload reach the
10240-byte buffer, so `publish_send_result` aborts before the publish:
the job for the unopenable file is attempted (the decode succeeded)
yet zero messages of any kind, in particular zero result messages, are
published. -/
theorem c2_counterexample :
    (parse_input c2raw).isSome = true ∧
    process_msg (some c2raw) (fun _ => none) (fun _ => true) =
      ⟨[], [], [(⟨"/x", "ix", "nx"⟩, false)]⟩ := by
  have hlen : bigRid.length = 10200 := by
    unfold bigRid
    rw [String.length_mk, List.length_replicate]
  have hbig : BUF_SIZE ≤ (resultPayload bigRid false).length := by
    unfold resultPayload
    simp only [String.length_append, hlen]
    decide
  have hq : parse_input c2raw = some ⟨bigRid, [⟨"/x", "ix", "nx"⟩], none, none, none⟩ := by
    unfold parse_input c2raw
    dsimp only
    rw [if_neg (by decide)]
    rfl
  have hrj : runJobs (fun _ => true) (fun _ => none) none
      (u32 (Option.getD none 0)) (u32 (Option.getD none 0)) [⟨"/x", "ix", "nx"⟩] 0 =
      ⟨[], [], false, 0, [(⟨"/x", "ix", "nx"⟩, false)]⟩ := by rfl
  have hps : publish_send_result (fun _ => true) bigRid false 0 = ([], false, 0) := by
    unfold publish_send_result
    rw [if_pos hbig]
  constructor
  · rw [hq]
    rfl
  · unfold process_msg
    dsimp only
    rw [hq]
    dsimp only
    unfold run_batch
    dsimp only
    rw [hrj]
    dsimp only
    rw [hps]
    rfl

theorem publish_file_go_sum (pub : Oracle) (fid : String) (fsize : Nat) :
    ∀ fuel csize off cnt ev cnt2,
      0 < csize → off ≤ fsize → fsize - off < fuel →
      publish_file_go pub fsize fid fsize fuel csize off cnt = (ev, true, cnt2) →
      (chunkLens ev).sum = fsize - off := by
  intro fuel
  induction fuel with
  | zero =>
    intro csize off cnt ev cnt2 hc hof hfuel h
    omega
  | succ m ih =>
    intro csize off cnt ev cnt2 hc hof hfuel h
    simp only [publish_file_go] at h
    by_cases h0 : min csize (fsize - off) = 0
    · rw [if_pos h0] at h
      injection h with ha hb
      subst ha
      have : fsize - off = 0 := by
        rcases Nat.min_eq_zero_iff.mp h0 with h' | h'
        · omega
        · exact h'
      simp [chunkLens, this]
    · rw [if_neg h0] at h
      by_cases h1 : BUF_SIZE ≤ (chunkTopic fid off).length
      · rw [if_pos h1] at h
        injection h with ha hb
        injection hb with hb hc2
        exact Bool.noConfusion hb
      · rw [if_neg h1] at h
        by_cases h2 : pub cnt = false
        · rw [if_pos h2] at h
          injection h with ha hb
          injection hb with hb hc2
          exact Bool.noConfusion hb
        · rw [if_neg h2] at h
          by_cases h3 : off + min csize (fsize - off) = fsize
          · rw [if_pos h3] at h
            injection h with ha hb
            subst ha
            have hple : min csize (fsize - off) ≤ fsize - off := Nat.min_le_right _ _
            simp [chunkLens]
            omega
          · rw [if_neg h3] at h
            injection h with ha hb
            injection hb with hb hc2
            have hple : min csize (fsize - off) ≤ fsize - off := Nat.min_le_right _ _
            have hpos : 0 < min csize (fsize - off) := Nat.pos_of_ne_zero h0
            have heta : publish_file_go pub fsize fid fsize m
                (if fsize - (off + min csize (fsize - off)) < csize
                  then fsize - (off + min csize (fsize - off)) else csize)
                (off + min csize (fsize - off)) (cnt + 1) =
                ((publish_file_go pub fsize fid fsize m
                  (if fsize - (off + min csize (fsize - off)) < csize
                    then fsize - (off + min csize (fsize - off)) else csize)
                  (off + min csize (fsize - off)) (cnt + 1)).1, true,
                 (publish_file_go pub fsize fid fsize m
                  (if fsize - (off + min csize (fsize - off)) < csize
                    then fsize - (off + min csize (fsize - off)) else csize)
                  (off + min csize (fsize - off)) (cnt + 1)).2.2) := by
              rw [← hb]
            have hcs : 0 < (if fsize - (off + min csize (fsize - off)) < csize
                then fsize - (off + min csize (fsize - off)) else csize) := by
              by_cases hcl : fsize - (off + min csize (fsize - off)) < csize
              · rw [if_pos hcl]
                omega
              · rw [if_neg hcl]
                omega
            have hrec := ih _ (off + min csize (fsize - off)) (cnt + 1) _ _
              hcs (by omega) (by omega) heta
            subst ha
            simp [chunkLens] at hrec ⊢
            omega

theorem lastLen_step (c r : Nat) (hc : 0 < c) (hlt : c < r) (c2 : Nat)
    (hc2 : c2 = if r - c < c then r - c else c) :
    (if r - c ≤ c2 then r - c
     else if (r - c) % c2 = 0 then c2 else (r - c) % c2) =
    (if r ≤ c then r else if r % c = 0 then c else r % c) := by
  have hr : r = (r - c) + c := by omega
  have hmod : r % c = (r - c) % c := by
    conv_lhs => rw [hr]
    exact Nat.add_mod_right _ _
  rw [if_neg (by omega : ¬ r ≤ c)]
  by_cases hcl : r - c < c
  · rw [if_pos hcl] at hc2
    rw [hc2]
    rw [if_pos (le_refl _)]
    have hmr : r % c = r - c := by rw [hmod, Nat.mod_eq_of_lt hcl]
    rw [hmr, if_neg (by omega)]
  · rw [if_neg hcl] at hc2
    rw [hc2]
    by_cases heq : r - c ≤ c
    · have hrc : r - c = c := by omega
      rw [if_pos heq]
      have hm0 : r % c = 0 := by rw [hmod, hrc, Nat.mod_self]
      rw [hm0, if_pos rfl]
      omega
    · rw [if_neg heq, hmod]

theorem lastLen_claim (c r : Nat) (hc : 0 < c) (hr : 0 < r) :
    (if r ≤ c then r else if r % c = 0 then c else r % c) =
    (if r % c ≠ 0 then r % c else c) := by
  by_cases h1 : r ≤ c
  · rw [if_pos h1]
    by_cases h2 : r = c
    · subst h2
      rw [if_neg (by simp [Nat.mod_self])]
    · have hm : r % c = r := Nat.mod_eq_of_lt (by omega)
      rw [if_pos (by rw [hm]; omega), hm]
  · rw [if_neg h1]
    by_cases h2 : r % c = 0
    · rw [if_pos h2, if_neg (by omega)]
    · rw [if_neg h2, if_pos h2]

theorem effective_chunk_size_pos (c : Nat) : 0 < effective_chunk_size c := by
  unfold effective_chunk_size
  split <;> omega

theorem publish_file_go_last (pub : Oracle) (fid : String) (fsize : Nat) :
    ∀ fuel csize off cnt ev cnt2,
      0 < csize → off < fsize → fsize - off < fuel →
      publish_file_go pub fsize fid fsize fuel csize off cnt = (ev, true, cnt2) →
      chunkLens ev ≠ [] ∧
      (chunkLens ev).getLast? = some
        (if fsize - off ≤ csize then fsize - off
         else if (fsize - off) % csize = 0 then csize else (fsize - off) % csize) := by
  intro fuel
  induction fuel with
  | zero =>
    intro csize off cnt ev cnt2 hc hof hfuel h
    omega
  | succ m ih =>
    intro csize off cnt ev cnt2 hc hof hfuel h
    simp only [publish_file_go] at h
    by_cases h0 : min csize (fsize - off) = 0
    · exfalso
      rcases Nat.min_eq_zero_iff.mp h0 with h' | h' <;> omega
    · rw [if_neg h0] at h
      by_cases h1 : BUF_SIZE ≤ (chunkTopic fid off).length
      · rw [if_pos h1] at h
        injection h with ha hb
        injection hb with hb hc2
        exact Bool.noConfusion hb
      · rw [if_neg h1] at h
        by_cases h2 : pub cnt = false
        · rw [if_pos h2] at h
          injection h with ha hb
          injection hb with hb hc2
          exact Bool.noConfusion hb
        · rw [if_neg h2] at h
          by_cases h3 : off + min csize (fsize - off) = fsize
          · rw [if_pos h3] at h
            injection h with ha hb
            subst ha
            constructor
            · simp [chunkLens]
            · simp only [chunkLens, List.filterMap]
              rw [if_pos (by omega : fsize - off ≤ csize)]
              simp
              omega
          · have hmin : min csize (fsize - off) = csize := by omega
            have hlt : csize < fsize - off := by omega
            rw [hmin] at h h3
            rw [if_neg h3] at h
            injection h with ha hb
            injection hb with hb hc2
            have hsub : fsize - (off + csize) = (fsize - off) - csize := by omega
            have hcs : 0 < (if fsize - (off + csize) < csize
                then fsize - (off + csize) else csize) := by
              by_cases hcl : fsize - (off + csize) < csize
              · rw [if_pos hcl]
                omega
              · rw [if_neg hcl]
                omega
            have heta : publish_file_go pub fsize fid fsize m
                (if fsize - (off + csize) < csize then fsize - (off + csize) else csize)
                (off + csize) (cnt + 1) =
                ((publish_file_go pub fsize fid fsize m
                  (if fsize - (off + csize) < csize then fsize - (off + csize) else csize)
                  (off + csize) (cnt + 1)).1, true,
                 (publish_file_go pub fsize fid fsize m
                  (if fsize - (off + csize) < csize then fsize - (off + csize) else csize)
                  (off + csize) (cnt + 1)).2.2) := by
              rw [← hb]
            have hrec := ih _ (off + csize) (cnt + 1) _ _ hcs (by omega) (by omega) heta
            obtain ⟨hne, hlast⟩ := hrec
            subst ha
            constructor
            · simp [chunkLens]
            · have hcons : chunkLens (⟨.chunk fid off csize, pub cnt⟩ ::
                  (publish_file_go pub fsize fid fsize m
                    (if fsize - (off + csize) < csize then fsize - (off + csize) else csize)
                    (off + csize) (cnt + 1)).1) =
                  csize :: chunkLens ((publish_file_go pub fsize fid fsize m
                    (if fsize - (off + csize) < csize then fsize - (off + csize) else csize)
                    (off + csize) (cnt + 1)).1) := by
                simp [chunkLens]
              rw [hcons]
              obtain ⟨x, l', hxl⟩ := List.exists_cons_of_ne_nil hne
              rw [hxl, List.getLast?_cons_cons, ← hxl, hlast]
              have hstep := lastLen_step csize (fsize - off) hc hlt
                (if fsize - (off + csize) < csize then fsize - (off + csize) else csize)
                (by rw [hsub])
              rw [← hstep, hsub]

/-- Claim C6 counterexample: a 5-byte file of which only 3 bytes can be
read yields a transfer that completes successfully (the truncated read
ends the loop), whose single chunk carries 3 bytes while the fin
destination announces 5, so the sum of chunk payload lengths differs
from the announced size. -/
theorem c6_counterexample :
    (send_file (fun _ => true) (fun p => if p = "/p6" then some ⟨5, 3⟩ else none)
        "/p6" "id6" "n6" 10240 0 ULONG_MAX ULONG_MAX 0).2.1 = true ∧
    (chunkLens (send_file (fun _ => true) (fun p => if p = "/p6" then some ⟨5, 3⟩ else none)
        "/p6" "id6" "n6" 10240 0 ULONG_MAX ULONG_MAX 0).1).sum = 3 ∧
    (send_file (fun _ => true) (fun p => if p = "/p6" then some ⟨5, 3⟩ else none)
        "/p6" "id6" "n6" 10240 0 ULONG_MAX ULONG_MAX 0).1.getLast? =
      some ⟨.fin "id6" 5, true⟩ ∧
    (3 : Nat) ≠ 5 := by
  refine ⟨by decide, by decide, by decide, by decide⟩

/-- Claim C6 as amended: for a transfer that completes successfully
with the file fully readable, the sum of the chunk payload lengths
equals the size announced by the fin message, and when at least one
chunk was published the final chunk carries fileSize mod
effectiveChunkSize when that remainder is nonzero and a full
effectiveChunkSize otherwise. -/
theorem c6_chunk_totals (pub : Oracle) (fs : FS) (path fid fname : String)
    (csize0 interval cnt : Nat) (expire ttl : Nat) (fd : FileData)
    (ev : List Event) (cnt2 : Nat)
    (hfd : fs path = some fd) (hfull : fd.size ≤ fd.readable)
    (hrun : send_file pub fs path fid fname csize0 interval expire ttl cnt = (ev, true, cnt2)) :
    (chunkLens ev).sum = fd.size ∧
    ev.getLast? = some ⟨.fin fid fd.size, true⟩ ∧
    (chunkLens ev ≠ [] →
      (chunkLens ev).getLast? = some
        (if fd.size % effective_chunk_size csize0 ≠ 0
         then fd.size % effective_chunk_size csize0
         else effective_chunk_size csize0)) := by
  unfold send_file at hrun
  rw [hfd] at hrun
  dsimp only at hrun
  by_cases hI : (publish_initial pub fid fname fd.size expire ttl cnt).2.1 = false
  · rw [if_pos hI] at hrun
    injection hrun with ha hb
    injection hb with hb hc3
    exact Bool.noConfusion hb
  · rw [if_neg hI] at hrun
    have hI' : (publish_initial pub fid fname fd.size expire ttl cnt).2.1 = true := by
      revert hI
      cases (publish_initial pub fid fname fd.size expire ttl cnt).2.1 <;> simp
    have hinit := publish_initial_ok pub fid fname fd.size expire ttl cnt hI'
    have hmin : min fd.readable fd.size = fd.size := Nat.min_eq_right hfull
    rw [hmin, hinit] at hrun
    dsimp only at hrun
    by_cases hC : (publish_file pub fd.size fid fd.size
        (effective_chunk_size csize0) interval (cnt + 1)).2.1 = false
    · rw [if_pos hC] at hrun
      injection hrun with ha hb
      injection hb with hb hc3
      exact Bool.noConfusion hb
    · rw [if_neg hC] at hrun
      injection hrun with ha hb
      injection hb with hb hc3
      have hC' : (publish_file pub fd.size fid fd.size
          (effective_chunk_size csize0) interval (cnt + 1)).2.1 = true := by
        revert hC
        cases (publish_file pub fd.size fid fd.size
          (effective_chunk_size csize0) interval (cnt + 1)).2.1 <;> simp
      have hfin := publish_fin_ok pub fid fd.size
        ((publish_file pub fd.size fid fd.size
          (effective_chunk_size csize0) interval (cnt + 1)).2.2) hb
      rw [hfin] at ha
      dsimp only at ha
      have heta : publish_file pub fd.size fid fd.size
          (effective_chunk_size csize0) interval (cnt + 1) =
          ((publish_file pub fd.size fid fd.size
            (effective_chunk_size csize0) interval (cnt + 1)).1, true,
           (publish_file pub fd.size fid fd.size
            (effective_chunk_size csize0) interval (cnt + 1)).2.2) := by
        rw [← hC']
      unfold publish_file at heta
      have hclens : chunkLens ([⟨.init fid fname fd.size (sentinelOpt expire)
          (sentinelOpt ttl), true⟩] ++
          (publish_file pub fd.size fid fd.size
            (effective_chunk_size csize0) interval (cnt + 1)).1 ++
          [⟨.fin fid fd.size, true⟩]) =
          chunkLens (publish_file pub fd.size fid fd.size
            (effective_chunk_size csize0) interval (cnt + 1)).1 := by
        simp [chunkLens]
      have hsum := publish_file_go_sum pub fid fd.size (fd.size + 1)
        (effective_chunk_size csize0) 0 (cnt + 1) _ _
        (effective_chunk_size_pos csize0) (Nat.zero_le _) (by omega) heta
      rw [Nat.sub_zero] at hsum
      have hzero : fd.size = 0 →
          (publish_file pub fd.size fid fd.size
            (effective_chunk_size csize0) interval (cnt + 1)).1 = [] := by
        intro hsz
        rw [hsz]
        simp [publish_file, publish_file_go]
      subst ha
      refine ⟨?_, ?_, ?_⟩
      · rw [hclens]
        unfold publish_file
        exact hsum
      · exact List.getLast?_concat _
      · intro hne
        rw [hclens] at hne ⊢
        by_cases hsz : fd.size = 0
        · exact absurd (by rw [hzero hsz]; rfl) hne
        · have hlast := publish_file_go_last pub fid fd.size (fd.size + 1)
            (effective_chunk_size csize0) 0 (cnt + 1) _ _
            (effective_chunk_size_pos csize0) (by omega) (by omega) heta
          obtain ⟨hne2, hl⟩ := hlast
          rw [Nat.sub_zero] at hl
          unfold publish_file
          rw [hl]
          rw [lastLen_claim (effective_chunk_size csize0) fd.size
            (effective_chunk_size_pos csize0) (by omega)]

/-- Witness for C6 as amended: a fully readable 5-byte file streamed
with chunk size 2 gives chunks 2, 2, 1 whose sum is 5 and whose last
length is 5 mod 2 = 1. -/
theorem c6_chunk_totals_witness :
    ((fun p => if p = "/p7" then some ⟨5, 5⟩ else none : FS) "/p7" = some ⟨5, 5⟩) ∧
    ((⟨5, 5⟩ : FileData).size ≤ (⟨5, 5⟩ : FileData).readable) ∧
    (send_file (fun _ => true) (fun p => if p = "/p7" then some ⟨5, 5⟩ else none)
        "/p7" "id7" "n7" 2 0 ULONG_MAX ULONG_MAX 0 =
      ([⟨.init "id7" "n7" 5 none none, true⟩, ⟨.chunk "id7" 0 2, true⟩,
        ⟨.chunk "id7" 2 2, true⟩, ⟨.chunk "id7" 4 1, true⟩, ⟨.fin "id7" 5, true⟩],
       true, 5)) ∧
    ((chunkLens [⟨.init "id7" "n7" 5 none none, true⟩, ⟨.chunk "id7" 0 2, true⟩,
        ⟨.chunk "id7" 2 2, true⟩, ⟨.chunk "id7" 4 1, true⟩,
        ⟨.fin "id7" 5, true⟩]).sum = (⟨5, 5⟩ : FileData).size ∧
      ([⟨.init "id7" "n7" 5 none none, true⟩, ⟨.chunk "id7" 0 2, true⟩,
        ⟨.chunk "id7" 2 2, true⟩, ⟨.chunk "id7" 4 1, true⟩,
        ⟨.fin "id7" 5, true⟩] : List Event).getLast? =
          some ⟨.fin "id7" (⟨5, 5⟩ : FileData).size, true⟩ ∧
      (chunkLens [⟨.init "id7" "n7" 5 none none, true⟩, ⟨.chunk "id7" 0 2, true⟩,
          ⟨.chunk "id7" 2 2, true⟩, ⟨.chunk "id7" 4 1, true⟩,
          ⟨.fin "id7" 5, true⟩] ≠ [] →
        (chunkLens [⟨.init "id7" "n7" 5 none none, true⟩, ⟨.chunk "id7" 0 2, true⟩,
          ⟨.chunk "id7" 2 2, true⟩, ⟨.chunk "id7" 4 1, true⟩,
          ⟨.fin "id7" 5, true⟩]).getLast? = some
            (if (⟨5, 5⟩ : FileData).size % effective_chunk_size 2 ≠ 0
             then (⟨5, 5⟩ : FileData).size % effective_chunk_size 2
             else effective_chunk_size 2))) :=
  ⟨by decide, by decide, by decide,
   c6_chunk_totals (fun _ => true) (fun p => if p = "/p7" then some ⟨5, 5⟩ else none)
     "/p7" "id7" "n7" 2 0 0 ULONG_MAX ULONG_MAX ⟨5, 5⟩
     [⟨.init "id7" "n7" 5 none none, true⟩, ⟨.chunk "id7" 0 2, true⟩,
      ⟨.chunk "id7" 2 2, true⟩, ⟨.chunk "id7" 4 1, true⟩, ⟨.fin "id7" 5, true⟩] 5
     (by decide) (by decide) (by decide)⟩
